import Mathlib

/-!
Verification development for the `rp_usb_power_switch` firmware
(src/src/main.rs): a USB HID device that receives a 4-byte big-endian
duration from the host and drives a relay pin high for that many
milliseconds.

Shallow embedding:
* `set_report` embeds `MyRequestHandler::set_report`, returning the
  transport response together with the value sent into the channel, if any.
* `HID_DESCRIPTOR` is the literal report-descriptor byte list, and
  `parseItems` a standard HID short-item parser used to state facts about it.
* `WatchState`, `Sys`, `Step` embed the single-receiver use of the
  `embassy_sync` watch channel together with the `toggle_task` loop as a
  labelled transition system; `send` steps may interleave anywhere, as the
  USB handler runs from interrupt context.
-/

namespace RpSwitch

/-- `MAX_DURATION` from main.rs line 33: ten minutes in milliseconds. -/
def MAX_DURATION : Nat := 1000 * 60 * 10

/-- `embassy_usb::control::OutResponse`. -/
inductive OutResponse where
  | Accepted
  | Rejected
deriving DecidableEq

/-- `embassy_usb::class::hid::ReportId`: a HID report identifier. -/
inductive ReportId where
  | In (n : Nat)
  | Out (n : Nat)
  | Feature (n : Nat)
deriving DecidableEq

/-- `u32::from_be_bytes` on four bytes (each `< 256` in the source). -/
def fromBeBytes (b0 b1 b2 b3 : Nat) : Nat :=
  ((b0 * 256 + b1) * 256 + b2) * 256 + b3

/-- `MyRequestHandler::set_report` (main.rs lines 130-148).
`data.try_into()` to `[u8; 4]` succeeds exactly when the slice has length 4,
otherwise the handler returns `Rejected`.  In-range durations
(`duration > 0 && duration <= MAX_DURATION`) are sent into the channel; the
second component records that send (`some duration`) or its absence. -/
def set_report (id : ReportId) (data : List Nat) : OutResponse × Option Nat :=
  match data with
  | [b0, b1, b2, b3] =>
    let duration := fromBeBytes b0 b1 b2 b3
    if 0 < duration ∧ duration ≤ MAX_DURATION then
      (OutResponse.Accepted, some duration)
    else
      (OutResponse.Accepted, none)
  | _ => (OutResponse.Rejected, none)

/-- `HID_DESCRIPTOR` from main.rs lines 108-120, byte for byte. -/
def HID_DESCRIPTOR : List Nat :=
  [0x5, 1,
   0x9, 0,
   0xA1, 1,
   0x15, 0,
   0x27, 0xFF, 0xFF, 0xFF, 0xFF,
   0x85, 1,
   0x75, 0x20,
   0x95, 1,
   0x9, 0,
   0x81, 0x82,
   0xC0]

/-- A parsed HID short item: the item byte with its two size bits cleared,
and the item's data bytes. -/
structure HidItem where
  head : Nat
  data : List Nat
deriving DecidableEq

/-- Data length of a HID short item whose first byte is `b`:
the low two bits, except `3` means four bytes. -/
def itemDataSize (b : Nat) : Nat :=
  if b % 4 = 3 then 4 else b % 4

/-- Fuel-indexed HID short-item parser (fuel bounds the number of items). -/
def parseItems : Nat → List Nat → Option (List HidItem)
  | _, [] => some []
  | 0, _ :: _ => none
  | fuel + 1, b :: rest =>
    let n := itemDataSize b
    if rest.length < n then none
    else
      match parseItems fuel (rest.drop n) with
      | some items => some (⟨b - b % 4, rest.take n⟩ :: items)
      | none => none

/-- The items of the device's report descriptor. -/
def hidItems : Option (List HidItem) :=
  parseItems HID_DESCRIPTOR.length HID_DESCRIPTOR

/-- Main data items: Input (`0x80`), Output (`0x90`) or Feature (`0xB0`). -/
def isMainDataItem (i : HidItem) : Bool :=
  i.head = 0x80 || i.head = 0x90 || i.head = 0xB0

/-- Input main items (`0x80` base, i.e. prefix byte `0x81` for 1 data byte). -/
def isInputItem (i : HidItem) : Bool :=
  i.head = 0x80

/-- Output main items (`0x90` base, i.e. prefix byte `0x91` for 1 data byte). -/
def isOutputItem (i : HidItem) : Bool :=
  i.head = 0x90

/-- Report ID global items (`0x84` base, prefix byte `0x85`). -/
def isReportIdItem (i : HidItem) : Bool :=
  i.head = 0x84

/-- Report Size global items (`0x74` base). -/
def isReportSizeItem (i : HidItem) : Bool :=
  i.head = 0x74

/-- Report Count global items (`0x94` base). -/
def isReportCountItem (i : HidItem) : Bool :=
  i.head = 0x94

/-- Modelled from the spec: the `LatestValueChannel`
(`embassy_sync::watch::Watch`, an external crate whose source is not in this
repository) as seen by its single receiver, per the section 4.2 contract:
a single slot holding the most recent sent `value`, a send counter
`version`, and the receiver's last observed send `seen`. -/
structure WatchState where
  value : Nat
  version : Nat
  seen : Nat
deriving DecidableEq

/-- Modelled from the spec: `send(value)` unconditionally overwrites the slot
and marks it changed (bumps the send counter); never blocks, never fails. -/
def WatchState.send (w : WatchState) (v : Nat) : WatchState :=
  ⟨v, w.version + 1, w.seen⟩

/-- Modelled from the spec: `wait_for_change()` can resume exactly when a
send happened after the receiver's last observation. -/
def WatchState.changedReady (w : WatchState) : Prop :=
  w.seen < w.version

instance (w : WatchState) : Decidable w.changedReady := by
  unfold WatchState.changedReady
  infer_instance

/-- Modelled from the spec: the value `wait_for_change()` returns — the most
recent send, i.e. the slot's sole value. -/
def WatchState.changedVal (w : WatchState) : Nat :=
  w.value

/-- Modelled from the spec: the channel state after `wait_for_change()`
returns — the receiver has now observed the latest send. -/
def WatchState.afterChanged (w : WatchState) : WatchState :=
  ⟨w.value, w.version, w.version⟩

/-- Modelled from the spec: `try_changed()` / `drain_pending()` — if a value
was sent since the last observation, consume it without blocking; otherwise
leave the state alone.  Returns the consumed value and the new state. -/
def WatchState.tryChanged (w : WatchState) : Option Nat × WatchState :=
  if w.seen < w.version then (some w.value, ⟨w.value, w.version, w.version⟩)
  else (none, w)

/-- The phase of the `toggle_task` loop (main.rs lines 48-58):
`waiting` at `receiver.changed().await`; `active total elapsed` with the pin
high inside `Timer::after_millis`, `elapsed` of `total` milliseconds done;
`lowered` after `relay_pin.set_low()` but before `receiver.try_changed()`. -/
inductive Phase where
  | waiting
  | active (total : Nat) (elapsed : Nat)
  | lowered
deriving DecidableEq

/-- Global state: the channel, the `toggle_task` phase, and `relay_pin`
(`true` = high).  `relay_pin` starts low (`Output::new(p.PIN_10, Low)`). -/
structure Sys where
  watch : WatchState
  phase : Phase
  pin : Bool
deriving DecidableEq

/-- Transition labels: `send d` is `MyRequestHandler` forwarding a duration
(it can fire at any time, from interrupt context); the others are the
`toggle_task` actions. -/
inductive Label where
  | send (d : Nat)
  | recv
  | tick
  | expire
  | drain
deriving DecidableEq

/-- Small-step semantics of the program.
`recv` is `receiver.changed().await` resuming followed by
`relay_pin.set_high()`; `tick` is one millisecond of `Timer::after_millis`;
`expire` is the timer completing and `relay_pin.set_low()`; `drain` is
`receiver.try_changed()`, after which the loop is back at the top. -/
inductive Step : Sys → Label → Sys → Prop where
  | send (s : Sys) (d : Nat) :
      Step s (Label.send d) ⟨s.watch.send d, s.phase, s.pin⟩
  | recv (s : Sys) (h : s.phase = Phase.waiting) (hn : s.watch.changedReady) :
      Step s Label.recv ⟨s.watch.afterChanged, Phase.active s.watch.changedVal 0, true⟩
  | tick (s : Sys) (d e : Nat) (h : s.phase = Phase.active d e) (hlt : e < d) :
      Step s Label.tick ⟨s.watch, Phase.active d (e + 1), s.pin⟩
  | expire (s : Sys) (d : Nat) (h : s.phase = Phase.active d d) :
      Step s Label.expire ⟨s.watch, Phase.lowered, false⟩
  | drain (s : Sys) (h : s.phase = Phase.lowered) :
      Step s Label.drain ⟨(s.watch.tryChanged).2, Phase.waiting, s.pin⟩

/-- A run: `Steps s ls t` means the labels `ls` take state `s` to state `t`. -/
inductive Steps : Sys → List Label → Sys → Prop where
  | nil (s : Sys) : Steps s [] s
  | cons {s s₁ s₂ : Sys} {l : Label} {ls : List Label} :
      Step s l s₁ → Steps s₁ ls s₂ → Steps s (l :: ls) s₂

/-- Boot state: no send yet, the task waiting, the pin low. -/
def initSys : Sys :=
  ⟨⟨0, 0, 0⟩, Phase.waiting, false⟩

/-- States reachable from boot. -/
inductive Reach : Sys → Prop where
  | init : Reach initSys
  | step {s s₂ : Sys} {l : Label} : Reach s → Step s l s₂ → Reach s₂

/-- One step preserves the basic invariant: the receiver never runs ahead of
the sender, and the pin is high exactly in the `active` phases. -/
theorem step_inv {s s₂ : Sys} {l : Label} (hst : Step s l s₂)
    (ih : s.watch.seen ≤ s.watch.version ∧
      (s.pin = true ↔ ∃ d e, s.phase = Phase.active d e)) :
    s₂.watch.seen ≤ s₂.watch.version ∧
    (s₂.pin = true ↔ ∃ d e, s₂.phase = Phase.active d e) := by
  cases hst with
  | send d =>
    refine ⟨?_, ?_⟩
    · have := ih.1
      simp only [WatchState.send]
      omega
    · simpa using ih.2
  | recv h hn =>
    refine ⟨le_refl _, ?_⟩
    simp only [WatchState.afterChanged]
    simp
  | tick d e h hlt =>
    have hpin : s.pin = true := ih.2.mpr ⟨d, e, h⟩
    refine ⟨ih.1, ?_⟩
    simp [hpin]
  | expire d h =>
    refine ⟨ih.1, ?_⟩
    simp
  | drain h =>
    have hpin : s.pin = false := by
      cases hp : s.pin with
      | false => rfl
      | true =>
        rcases ih.2.mp hp with ⟨d, e, hde⟩
        rw [h] at hde
        exact absurd hde (by simp)
    refine ⟨?_, ?_⟩
    · by_cases hc : s.watch.seen < s.watch.version
      · simp [WatchState.tryChanged, hc]
      · simp only [WatchState.tryChanged, if_neg hc]
        exact ih.1
    · simp [hpin]

/-- Reachability invariant, by induction along `Reach`. -/
theorem reach_inv {s : Sys} (h : Reach s) :
    s.watch.seen ≤ s.watch.version ∧
    (s.pin = true ↔ ∃ d e, s.phase = Phase.active d e) := by
  induction h with
  | init => simp [initSys]
  | step hr hst ih => exact step_inv hst ih

/-- Runs compose. -/
theorem Steps.append {s s₁ s₂ : Sys} {ls₁ ls₂ : List Label} :
    Steps s ls₁ s₁ → Steps s₁ ls₂ s₂ → Steps s (ls₁ ++ ls₂) s₂ := by
  intro h1
  induction h1 with
  | nil s => intro h2; simpa using h2
  | cons hst hrest ih => intro h2; exact Steps.cons hst (ih h2)

/-- The timer runs: `k` one-millisecond ticks advance an `active` phase,
touching neither the channel nor the pin. -/
theorem ticks_run (w : WatchState) (p : Bool) (d : Nat) :
    ∀ k e, e + k ≤ d →
      Steps ⟨w, Phase.active d e, p⟩ (List.replicate k Label.tick)
        ⟨w, Phase.active d (e + k), p⟩ := by
  intro k
  induction k with
  | zero => intro e he; simpa using Steps.nil (⟨w, Phase.active d e, p⟩ : Sys)
  | succ k ih =>
    intro e he
    have h1 : Step (⟨w, Phase.active d e, p⟩ : Sys) Label.tick
        ⟨w, Phase.active d (e + 1), p⟩ :=
      Step.tick _ d e rfl (by omega)
    have h2 := ih (e + 1) (by omega)
    have h3 := Steps.cons h1 h2
    have he2 : e + 1 + k = e + (k + 1) := by omega
    rw [he2] at h3
    simpa [List.replicate_succ] using h3

/-- Along a run containing no `send`, a drained channel stays drained. -/
theorem drained_stays_drained {ls : List Label} :
    ∀ s₁ s₂, Steps s₁ ls s₂ → (∀ d, Label.send d ∉ ls) →
      s₁.watch.seen = s₁.watch.version → s₂.watch.seen = s₂.watch.version := by
  induction ls with
  | nil =>
    intro s₁ s₂ h _ he
    cases h
    exact he
  | cons l ls ih =>
    intro s₁ s₂ h hn he
    cases h with
    | cons hst hrest =>
      refine ih _ _ hrest (fun d hd => hn d (List.mem_cons_of_mem _ hd)) ?_
      cases hst with
      | send d => exact absurd (List.mem_cons_self _ _) (hn d)
      | recv h hready =>
        exfalso
        unfold WatchState.changedReady at hready
        omega
      | tick d e h hlt => exact he
      | expire d h => exact he
      | drain h =>
        have hc : ¬ s₁.watch.seen < s₁.watch.version := by omega
        simp only [WatchState.tryChanged, if_neg hc]
        exact he

/-- C1: no re-trigger — from any reachable state, the `drain` step
(`receiver.try_changed()`) leaves the channel with nothing pending, so every
command sent while the actuator was busy is discarded before it returns to
`Idle`; from then on, as long as no new `send` occurs, no `recv` can fire —
only a command sent after the return to `Idle` can start a new activation.
Moreover the pin only ever goes high at a `recv` step. -/
theorem C1_no_retrigger :
    (∀ s, Reach s → ∀ s₁, Step s Label.drain s₁ →
      s₁.watch.seen = s₁.watch.version ∧
      ∀ ls s₂, Steps s₁ ls s₂ → (∀ d, Label.send d ∉ ls) →
        ∀ s₃, ¬ Step s₂ Label.recv s₃) ∧
    (∀ s l s₂, Step s l s₂ → s.pin = false → s₂.pin = true → l = Label.recv) := by
  constructor
  · intro s hs s₁ hst
    have hle := (reach_inv hs).1
    cases hst with
    | drain h =>
      have h1 : ((s.watch.tryChanged).2).seen = ((s.watch.tryChanged).2).version := by
        by_cases hc : s.watch.seen < s.watch.version
        · simp [WatchState.tryChanged, hc]
        · simp only [WatchState.tryChanged, if_neg hc]
          omega
      refine ⟨h1, ?_⟩
      intro ls s₂ hsteps hn s₃ hrecv
      have h2 := drained_stays_drained _ _ hsteps hn h1
      cases hrecv with
      | recv hph2 hready =>
        unfold WatchState.changedReady at hready
        omega
  · intro s l s₂ hst h0 h1
    cases hst with
    | send d => rw [h0] at h1; cases h1
    | recv h hn => rfl
    | tick d e h hlt => rw [h0] at h1; cases h1
    | expire d h => cases h1
    | drain h => rw [h0] at h1; cases h1

/-- Witness for C1: a concrete cycle `send 1; recv; tick; expire; drain`
from boot lands in `⟨⟨1,1,1⟩, waiting, false⟩`, and with no further send no
reception can fire there. -/
theorem C1_no_retrigger_witness :
    ¬ Step ⟨⟨1, 1, 1⟩, Phase.waiting, false⟩ Label.recv
        ⟨⟨1, 1, 1⟩, Phase.active 1 0, true⟩ := by
  have h0 : Reach initSys := Reach.init
  have h1 : Reach ⟨⟨1, 1, 0⟩, Phase.waiting, false⟩ :=
    Reach.step h0 (Step.send initSys 1)
  have h2 : Reach ⟨⟨1, 1, 1⟩, Phase.active 1 0, true⟩ :=
    Reach.step h1 (Step.recv _ rfl (by decide))
  have h3 : Reach ⟨⟨1, 1, 1⟩, Phase.active 1 1, true⟩ :=
    Reach.step h2 (Step.tick _ 1 0 rfl (by decide))
  have h4 : Reach ⟨⟨1, 1, 1⟩, Phase.lowered, false⟩ :=
    Reach.step h3 (Step.expire _ 1 rfl)
  have hdrain : Step ⟨⟨1, 1, 1⟩, Phase.lowered, false⟩ Label.drain
      ⟨⟨1, 1, 1⟩, Phase.waiting, false⟩ := by
    have h := Step.drain (⟨⟨1, 1, 1⟩, Phase.lowered, false⟩ : Sys) rfl
    simpa [WatchState.tryChanged] using h
  exact (C1_no_retrigger.1 _ h4 _ hdrain).2 [] _ (Steps.nil _) (by simp) _

/-- C2: actuation sequence — whenever the channel has an unobserved value,
the task performs, in order: `recv` (observe the value and set the pin
high), exactly `d` one-millisecond ticks for the received duration `d`,
`expire` (set the pin low), `drain` (discard anything pending), landing back
at `waiting`; the pin is mutated only by `recv` and `expire`; the timer
expires only after exactly `d` milliseconds; and from the `lowered` point
the only task action is `drain`. -/
theorem C2_actuation_sequence :
    (∀ w : WatchState, w.changedReady →
      Steps ⟨w, Phase.waiting, false⟩
        (Label.recv :: (List.replicate w.changedVal Label.tick ++
          [Label.expire, Label.drain]))
        ⟨⟨w.value, w.version, w.version⟩, Phase.waiting, false⟩) ∧
    (∀ s l s₂, Step s l s₂ → s₂.pin ≠ s.pin →
      (l = Label.recv ∧ s₂.pin = true) ∨ (l = Label.expire ∧ s₂.pin = false)) ∧
    (∀ s s₂ d e, s.phase = Phase.active d e → Step s Label.expire s₂ → e = d) ∧
    (∀ s l s₂, s.phase = Phase.lowered → Step s l s₂ →
      l = Label.drain ∨ ∃ d, l = Label.send d) := by
  refine ⟨?_, ?_, ?_, ?_⟩
  · intro w hn
    have hrecv : Step (⟨w, Phase.waiting, false⟩ : Sys) Label.recv
        ⟨w.afterChanged, Phase.active w.changedVal 0, true⟩ :=
      Step.recv _ rfl hn
    have hticks := ticks_run w.afterChanged true w.changedVal w.changedVal 0 (by omega)
    rw [Nat.zero_add] at hticks
    have hexp : Step (⟨w.afterChanged, Phase.active w.changedVal w.changedVal, true⟩ : Sys)
        Label.expire ⟨w.afterChanged, Phase.lowered, false⟩ :=
      Step.expire _ _ rfl
    have hdr : Step (⟨w.afterChanged, Phase.lowered, false⟩ : Sys) Label.drain
        ⟨((w.afterChanged).tryChanged).2, Phase.waiting, false⟩ :=
      Step.drain _ rfl
    have htc : ((w.afterChanged).tryChanged).2 = ⟨w.value, w.version, w.version⟩ := by
      simp [WatchState.tryChanged, WatchState.afterChanged]
    rw [htc] at hdr
    exact Steps.cons hrecv
      (Steps.append hticks (Steps.cons hexp (Steps.cons hdr (Steps.nil _))))
  · intro s l s₂ hst hne
    cases hst with
    | send d => exact absurd rfl hne
    | recv h hn => exact Or.inl ⟨rfl, rfl⟩
    | tick d e h hlt => exact absurd rfl hne
    | expire d h => exact Or.inr ⟨rfl, rfl⟩
    | drain h => exact absurd rfl hne
  · intro s s₂ d e hph hst
    cases hst with
    | expire d0 h0 =>
      rw [hph] at h0
      injection h0 with h1 h2
      omega
  · intro s l s₂ hph hst
    cases hst with
    | send d => exact Or.inr ⟨d, rfl⟩
    | recv h hn => rw [hph] at h; cases h
    | tick d e h hlt => rw [hph] at h; cases h
    | expire d h => rw [hph] at h; cases h
    | drain h => exact Or.inl rfl

/-- Witness for C2: the full cycle for a 2 ms activation with one pending
send at the start. -/
theorem C2_actuation_sequence_witness :
    Steps ⟨⟨2, 1, 0⟩, Phase.waiting, false⟩
      (Label.recv :: (List.replicate 2 Label.tick ++ [Label.expire, Label.drain]))
      ⟨⟨2, 1, 1⟩, Phase.waiting, false⟩ :=
  C2_actuation_sequence.1 ⟨2, 1, 0⟩ (by decide)

/-- C3: channel overwrite law — after sending `A` then `B` with no
observation in between, the next observation returns `B`; it never returns
`A` (when `A ≠ B`); the channel is ready; and once observed, nothing is left
pending (the slot holds at most one unconsumed value). -/
theorem C3_overwrite_law (w : WatchState) (A B : Nat) :
    ((w.send A).send B).changedVal = B ∧
    (A ≠ B → ((w.send A).send B).changedVal ≠ A) ∧
    (w.seen ≤ w.version → ((w.send A).send B).changedReady) ∧
    ((((w.send A).send B).afterChanged).tryChanged).1 = none := by
  refine ⟨rfl, ?_, ?_, ?_⟩
  · intro hAB
    exact Ne.symm hAB
  · intro hle
    show w.seen < w.version + 1 + 1
    omega
  · simp [WatchState.tryChanged, WatchState.afterChanged]

/-- Witness for C3: from a fresh channel, sending 1 then 2 leaves exactly 2
observable. -/
theorem C3_overwrite_law_witness :
    ((WatchState.send (WatchState.send ⟨0, 0, 0⟩ 1) 2).changedVal = 2) ∧
    ((WatchState.send (WatchState.send ⟨0, 0, 0⟩ 1) 2).changedVal ≠ 1) ∧
    (WatchState.send (WatchState.send ⟨0, 0, 0⟩ 1) 2).changedReady :=
  ⟨(C3_overwrite_law ⟨0, 0, 0⟩ 1 2).1,
   (C3_overwrite_law ⟨0, 0, 0⟩ 1 2).2.1 (by decide),
   (C3_overwrite_law ⟨0, 0, 0⟩ 1 2).2.2.1 (by decide)⟩

/-- C9: output-pin invariant — the pin is low at boot; in every reachable
state it is high exactly when the task is inside an activation interval, and
in particular low whenever the task is waiting (`Idle`); and no step other
than the task's own `recv` and `expire` ever changes the pin (sends never
touch it). -/
theorem C9_pin_invariant :
    initSys.pin = false ∧
    (∀ s, Reach s →
      ((s.pin = true ↔ ∃ d e, s.phase = Phase.active d e) ∧
       (s.phase = Phase.waiting → s.pin = false))) ∧
    (∀ s l s₂, Step s l s₂ → s₂.pin ≠ s.pin → l = Label.recv ∨ l = Label.expire) := by
  refine ⟨rfl, ?_, ?_⟩
  · intro s hs
    have hi := (reach_inv hs).2
    refine ⟨hi, fun hw => ?_⟩
    cases hp : s.pin with
    | false => rfl
    | true =>
      rcases hi.mp hp with ⟨d, e, hde⟩
      rw [hw] at hde
      exact absurd hde (by simp)
  · intro s l s₂ hst hne
    cases hst with
    | send d => exact absurd rfl hne
    | recv h hn => exact Or.inl rfl
    | tick d e h hlt => exact absurd rfl hne
    | expire d h => exact Or.inr rfl
    | drain h => exact absurd rfl hne

/-- Witness for C9 at the boot state. -/
theorem C9_pin_invariant_witness : initSys.pin = false :=
  (C9_pin_invariant.2.1 initSys Reach.init).2 rfl

/-- C4: in-range acceptance — for every 4-byte payload whose big-endian
`u32` interpretation `d` satisfies `1 ≤ d ≤ 600000`, `set_report` performs
exactly one channel send, of `d` itself, and returns `Accepted`;
the response/effect pair is exactly `(Accepted, some d)`. -/
theorem C4_in_range_acceptance (id : ReportId) (b0 b1 b2 b3 : Nat)
    (hb0 : b0 < 256) (hb1 : b1 < 256) (hb2 : b2 < 256) (hb3 : b3 < 256)
    (h1 : 1 ≤ fromBeBytes b0 b1 b2 b3) (h2 : fromBeBytes b0 b1 b2 b3 ≤ 600000) :
    set_report id [b0, b1, b2, b3] =
      (OutResponse.Accepted, some (fromBeBytes b0 b1 b2 b3)) := by
  have hc : 0 < fromBeBytes b0 b1 b2 b3 ∧ fromBeBytes b0 b1 b2 b3 ≤ MAX_DURATION := by
    refine ⟨h1, ?_⟩
    simpa [MAX_DURATION] using h2
  simp [set_report, hc]

/-- Witness for C4 at the spec's first concrete scenario,
payload `[0, 0, 0, 100]` (100 ms). -/
theorem C4_in_range_acceptance_witness :
    set_report (ReportId.Out 1) [0, 0, 0, 100] = (OutResponse.Accepted, some 100) :=
  C4_in_range_acceptance (ReportId.Out 1) 0 0 0 100 (by decide) (by decide)
    (by decide) (by decide) (by decide) (by decide)

/-- C5: out-of-range silent drop — for every 4-byte payload whose big-endian
`u32` interpretation `d` is `0` or exceeds `600000`, `set_report` sends
nothing into the channel yet still returns `Accepted`. -/
theorem C5_out_of_range_drop (id : ReportId) (b0 b1 b2 b3 : Nat)
    (hb0 : b0 < 256) (hb1 : b1 < 256) (hb2 : b2 < 256) (hb3 : b3 < 256)
    (h : fromBeBytes b0 b1 b2 b3 = 0 ∨ 600000 < fromBeBytes b0 b1 b2 b3) :
    set_report id [b0, b1, b2, b3] = (OutResponse.Accepted, none) := by
  have hc : ¬ (0 < fromBeBytes b0 b1 b2 b3 ∧ fromBeBytes b0 b1 b2 b3 ≤ MAX_DURATION) := by
    simp only [MAX_DURATION]
    omega
  simp [set_report, hc]

/-- Witness for C5 at the spec's second concrete scenario,
payload `[0, 0, 0, 0]` (0 ms). -/
theorem C5_out_of_range_drop_witness :
    set_report (ReportId.Out 1) [0, 0, 0, 0] = (OutResponse.Accepted, none) :=
  C5_out_of_range_drop (ReportId.Out 1) 0 0 0 0 (by decide) (by decide)
    (by decide) (by decide) (Or.inl (by decide))

/-- C6: wrong-length rejection — for every payload whose length is not 4,
`set_report` returns `Rejected` and nothing is forwarded into the channel. -/
theorem C6_wrong_length_rejection (id : ReportId) (data : List Nat)
    (h : data.length ≠ 4) :
    set_report id data = (OutResponse.Rejected, none) := by
  match data with
  | [] => rfl
  | [_] => rfl
  | [_, _] => rfl
  | [_, _, _] => rfl
  | [_, _, _, _] => simp at h
  | _ :: _ :: _ :: _ :: _ :: _ => rfl

/-- Witness for C6 at the spec's third concrete scenario, a 5-byte payload. -/
theorem C6_wrong_length_rejection_witness :
    set_report (ReportId.Out 1) [0, 0, 0, 0, 50] = (OutResponse.Rejected, none) :=
  C6_wrong_length_rejection (ReportId.Out 1) [0, 0, 0, 0, 50] (by decide)

/-- C8: no panic on input — `set_report` is a total function of the report id
and the payload (the embedding needs no `Option`/`Except` anywhere: the
source handles the fallible `try_into` locally), and on every input it
returns either `Rejected` or `Accepted`. -/
theorem C8_total_no_panic (id : ReportId) (data : List Nat) :
    (set_report id data).1 = OutResponse.Rejected ∨
    (set_report id data).1 = OutResponse.Accepted := by
  match data with
  | [] => exact Or.inl rfl
  | [_] => exact Or.inl rfl
  | [_, _] => exact Or.inl rfl
  | [_, _, _] => exact Or.inl rfl
  | [b0, b1, b2, b3] =>
    refine Or.inr ?_
    by_cases hc : 0 < fromBeBytes b0 b1 b2 b3 ∧ fromBeBytes b0 b1 b2 b3 ≤ MAX_DURATION
    · simp [set_report, hc]
    · simp [set_report, hc]
  | _ :: _ :: _ :: _ :: _ :: _ => exact Or.inl rfl

/-- C10: report-ID independence — `set_report` never inspects the report id
(the source only logs it), so any two ids yield the same response and the
same channel effect on the same payload. -/
theorem C10_report_id_independence (id1 id2 : ReportId) (data : List Nat) :
    set_report id1 data = set_report id2 data := rfl

/-- C7: the report descriptor parses into items declaring exactly one
Report ID item with value 1 and exactly one main data item of Report Size 32
and Report Count 1 — but that main item is an Input item (prefix `0x81`,
device-to-host), and the descriptor contains no Output item at all,
contradicting the claim that the field is declared as an output report. -/
theorem C7_descriptor_declares_input_not_output :
    hidItems.map (List.filter isReportIdItem) = some [⟨0x84, [1]⟩] ∧
    hidItems.map (List.filter isReportSizeItem) = some [⟨0x74, [0x20]⟩] ∧
    hidItems.map (List.filter isReportCountItem) = some [⟨0x94, [1]⟩] ∧
    hidItems.map (List.filter isMainDataItem) = some [⟨0x80, [0x82]⟩] ∧
    hidItems.map (List.filter isOutputItem) = some [] := by
  decide

end RpSwitch
